import Mathlib

/-!
Verification development for the `amicus` repository (operator-facing worker
monitor).  The definitions below are a shallow embedding of the Python source:

* `src/amicus/common.py`  — event bus (`ServiceManager`, `Service`), task
  lifecycle (`TaskAwaiter`);
* `src/amicus/server.py`  — session handler (`client_update`, `_reader`),
  worker registry (`ClientService`).

Python dicts are modelled as association lists (insertion order preserved,
first-match lookup), Python `asyncio.Queue`s as lists (FIFO), machine floats
as rationals, and exceptions as explicit error values.
-/

namespace Amicus

/-- First-match lookup in an association list; models Python `dict[k]`
(dicts here are only ever extended with fresh keys, so first match is the
unique match in reachable states). -/
def lookupA {α β : Type} [DecidableEq α] (k : α) : List (α × β) → Option β
  | [] => none
  | (a, b) :: rest => if a = k then some b else lookupA k rest

/-- Overwrite the value stored at the first entry with key `k`; models Python
`dict[k] = v` for an existing key (insertion position is preserved, as in
CPython dicts). -/
def setAssoc {α β : Type} [DecidableEq α] (l : List (α × β)) (k : α) (v : β) :
    List (α × β) :=
  match l with
  | [] => []
  | p :: rest => if p.1 = k then (k, v) :: rest else p :: setAssoc rest k v

/-! ## Event bus (`src/amicus/common.py`) -/

/-- A queued event: either an ordinary published value (payloads abstracted as
naturals) or the reserved `QUIT` sentinel (`common.py` line 8). -/
inductive Ev : Type where
  | quit : Ev
  | val : Nat → Ev
deriving DecidableEq, Repr

/-- Failures of the bus's internal `assert` statements, named as in the spec's
contract (§4.1).  `notSubscribed` models the `assert topic in self._subs` of
`Service.on_pub` (`common.py` line 21). -/
inductive BusError : Type where
  | duplicateTopic : BusError
  | unknownTopic : BusError
  | unknownService : BusError
  | duplicateSubscription : BusError
  | notSubscribed : BusError
deriving DecidableEq, Repr

/-- The bus-relevant state of a `ServiceManager` and its registered services:
`services` models `ServiceManager._services` (names only), `topics` models
`ServiceManager._topics` (topic name ↦ subscriber names), and `queues` models
the per-service `Service._subs` dicts, keyed by (service name, topic). -/
structure BusState : Type where
  services : List String
  topics : List (String × List String)
  queues : List ((String × String) × List Ev)
deriving DecidableEq, Repr

/-- `ServiceManager.__init__` (`common.py` lines 89-95): empty registries plus
the pre-created `log` topic. -/
def initState : BusState :=
  { services := [], topics := [("log", [])], queues := [] }

/-- `ServiceManager.create_topic` (`common.py` lines 102-105): asserts the
topic is new, then installs an empty subscriber set. -/
def create_topic (s : BusState) (t : String) : Except BusError BusState :=
  if (lookupA t s.topics).isSome then .error .duplicateTopic
  else .ok { s with topics := s.topics ++ [(t, [])] }

/-- `ServiceManager.register` (`common.py` lines 123-128): records the service
by name, then creates the topic named after it. -/
def register (s : BusState) (sv : String) : Except BusError BusState :=
  create_topic { s with services := s.services ++ [sv] } sv

/-- `Service.sub` (`common.py` lines 34-50): asserts no duplicate subscription
(`topic not in self._subs`), creates a fresh empty queue and consumer loop,
then `ServiceManager._register_sub` asserts the service is registered
(line 119) and the topic exists (`_get_topic`, line 98) and finally adds the
service name to the topic's subscriber set. -/
def sub (s : BusState) (sv t : String) : Except BusError BusState :=
  if (lookupA (sv, t) s.queues).isSome then .error .duplicateSubscription
  else
    let s1 : BusState := { s with queues := s.queues ++ [((sv, t), [])] }
    if sv ∈ s1.services then
      match lookupA t s1.topics with
      | none => .error .unknownTopic
      | some subs =>
          .ok { s1 with topics := setAssoc s1.topics t (subs ++ [sv]) }
    else .error .unknownService

/-- `Service.on_pub` (`common.py` lines 20-22): asserts the service subscribes
to the topic, then enqueues the event at the back of the matching queue. -/
def on_pub (s : BusState) (sv t : String) (e : Ev) : Except BusError BusState :=
  match lookupA (sv, t) s.queues with
  | none => .error .notSubscribed
  | some q => .ok { s with queues := setAssoc s.queues (sv, t) (q ++ [e]) }

/-- `ServiceManager.pub` (`common.py` lines 107-112): `_get_topic` asserts the
topic exists, then one delivery (an `on_pub` enqueue) runs per current
subscriber, in subscriber-set order.  The `asyncio.create_task` deliveries of
a single `pub` call run in creation order before any later `pub`'s, so the
sequential fold is the faithful queue-content semantics; the returned
`TaskAwaiter` handle is modelled separately (`MgrState` below). -/
def pub (s : BusState) (t : String) (e : Ev) : Except BusError BusState :=
  match lookupA t s.topics with
  | none => .error .unknownTopic
  | some subs => subs.foldlM (fun st sv => on_pub st sv t e) s

/-- A sequence of `pub` calls of the same values from one logical sequence
point. -/
def pubAll (s : BusState) (t : String) (es : List Ev) : Except BusError BusState :=
  es.foldlM (fun st e => pub st t e) s

/-- `ServiceManager.close_topic` (`common.py` lines 114-116): publish the
`QUIT` sentinel, then delete the topic entry. -/
def close_topic (s : BusState) (t : String) : Except BusError BusState :=
  match pub s t .quit with
  | .error e => .error e
  | .ok s1 =>
      .ok { s1 with topics := s1.topics.eraseP (fun p => decide (p.1 = t)) }

/-- The values a subscription's consumer loop `_topic_listener` (`common.py`
lines 40-45) passes to the handler, given the queue contents it dequeues:
every event in arrival order, stopping at the first `QUIT` sentinel, which is
never handed to the handler. -/
def listenerDelivered : List Ev → List Ev
  | [] => []
  | e :: rest => if e = Ev.quit then [] else e :: listenerDelivered rest

/-- Whether `_topic_listener` has terminated (dequeued the `QUIT` sentinel)
after consuming the given queue contents. -/
def listenerTerminated : List Ev → Bool
  | [] => false
  | e :: rest => if e = Ev.quit then true else listenerTerminated rest

/-! ## Task lifecycle (`TaskAwaiter`, `ServiceManager.wait`) -/

/-- The lifecycle-relevant state of a `ServiceManager`: `awaiters` models
`_task_awaiters` (insertion-ordered dict of awaiter id ↦ the ids of awaiters
that the awaited tasks register while running, e.g. deliveries that publish
again); `doneEvents` is the set of awaiter ids whose `_done` event is set. -/
structure MgrState : Type where
  awaiters : List (Nat × List Nat)
  doneEvents : List Nat
deriving DecidableEq, Repr, Inhabited

/-- The three successive states produced by `TaskAwaiter._await_tasks`
(`common.py` lines 79-83) for awaiter `i` whose awaited tasks register the
awaiters `sp` while running: first the awaited work finishes (registering
`sp`), then `del self._manager._task_awaiters[self._idx]`, then
`self._done.set()`. -/
def awaitTasksTrace (m : MgrState) (i : Nat) (sp : List Nat) : List MgrState :=
  let m1 : MgrState :=
    { m with awaiters := m.awaiters ++ sp.map (fun j => (j, [])) }
  let m2 : MgrState :=
    { m1 with awaiters := m1.awaiters.eraseP (fun p => decide (p.1 = i)) }
  let m3 : MgrState := { m2 with doneEvents := m2.doneEvents ++ [i] }
  [m, m1, m2, m3]

/-- The final state of `TaskAwaiter._await_tasks` for awaiter `i`. -/
def awaitTasksRun (m : MgrState) (i : Nat) (sp : List Nat) : MgrState :=
  (awaitTasksTrace m i sp).getLast!

/-- The drain loop of `ServiceManager.wait` (`common.py` lines 138-140): while
`_task_awaiters` is non-empty (the dict is re-read on every iteration), take
its first awaiter and await its `done()`, which runs that awaiter's
`_await_tasks` to completion.  Fuel-indexed; `none` means the fuel ran out
before the loop exited.  Also returns the ids awaited, in order. -/
def drain : Nat → MgrState → Option (MgrState × List Nat)
  | 0, m => if m.awaiters.isEmpty then some (m, []) else none
  | fuel + 1, m =>
      match m.awaiters with
      | [] => some (m, [])
      | (i, sp) :: _ =>
          match drain fuel (awaitTasksRun m i sp) with
          | none => none
          | some (mf, l) => some (mf, i :: l)

/-! ## Session handler (`src/amicus/server.py`, `ClientHandlerService`) -/

/-- Python `str.split()` with no arguments: split on runs of whitespace,
dropping empty tokens.  `acc` holds the current token, reversed. -/
def splitWsAux : List Char → List Char → List String
  | [], acc => if acc.isEmpty then [] else [String.mk acc.reverse]
  | c :: rest, acc =>
      if c = ' ' ∨ c = '\n' ∨ c = '\t' ∨ c = '\r' then
        (if acc.isEmpty then [] else [String.mk acc.reverse]) ++ splitWsAux rest []
      else splitWsAux rest (c :: acc)

/-- `line.decode().split()` on a protocol line (`server.py` line 62). -/
def splitWs (s : String) : List String := splitWsAux s.data []

/-- Numeric value of a digit string (helper; 0 on the empty list). -/
def digitsVal (l : List Char) : Nat :=
  l.foldl (fun a c => 10 * a + (c.toNat - 48)) 0

/-- Models Python `int(s)` on a whitespace-free token: an optional sign
followed by one or more decimal digits, else a `ValueError` (`none`). -/
def pyInt? (s : String) : Option Int :=
  let core : List Char → Option Int := fun l =>
    if l.isEmpty = false ∧ l.all Char.isDigit then some (digitsVal l : Int)
    else none
  match s.data with
  | '-' :: rest => (core rest).map (fun n => -n)
  | '+' :: rest => core rest
  | l => core l

/-- Models Python `float(s)` on a whitespace-free token, idealised to exact
rationals: an optional sign and a plain decimal literal `digits`, `digits.`,
`.digits` or `digits.digits` (exponents, `inf` and `nan` do not occur in this
protocol and are not modelled); anything else is a `ValueError` (`none`). -/
def floatCore? (l : List Char) : Option ℚ :=
  match l.splitOn '.' with
  | [ip] =>
      if ip.isEmpty = false ∧ ip.all Char.isDigit then some (digitsVal ip : ℚ)
      else none
  | [ip, fp] =>
      if (ip.isEmpty = false ∨ fp.isEmpty = false)
          ∧ ip.all Char.isDigit ∧ fp.all Char.isDigit then
        some ((digitsVal ip : ℚ) + (digitsVal fp : ℚ) / 10 ^ fp.length)
      else none
  | _ => none

/-- Python `float(s)`, signs included. -/
def pyFloat? (s : String) : Option ℚ :=
  match s.data with
  | '-' :: rest => (floatCore? rest).map Neg.neg
  | '+' :: rest => floatCore? rest
  | l => floatCore? l

/-- A stored progress value: Python `float` (idealised as ℚ) or the raw
string fallback. -/
inductive Prog : Type where
  | num : ℚ → Prog
  | str : String → Prog
deriving DecidableEq, Repr

/-- Python exceptions that can escape the session handler's coroutines. -/
inductive PyErr : Type where
  | indexError : PyErr
  | valueError : PyErr
  | zeroDivisionError : PyErr
deriving DecidableEq, Repr

/-- Topic names used by the session handler, as typed keys.  A session with id
`idx` has prefix `handler/{idx}` (`server.py` line 49); the interpolated
per-session topic `f'handler/{idx}/x'` is modelled as `sessionX idx`, and the
fixed names keep their spelling. -/
inductive Topic : Type where
  | log : Topic
  | clientJoin : Topic
  | clientLeave : Topic
  | clientDone : Topic
  | clientProgress : Topic
  | clientAlert : Topic
  | sessionProgress : Nat → Topic
  | sessionAlert : Nat → Topic
  | sessionRecv : Nat → Topic
  | sessionSend : Nat → Topic
  | sessionKeepalive : Nat → Topic
deriving DecidableEq, Repr

/-- The handler's log-topic message texts (`self.log(0, f'...')`), one
constructor per f-string. -/
inductive HLog : Type where
  | progressLog : Nat → Prog → HLog
  | alertLog : Nat → String → HLog
  | doneLog : Nat → HLog
  | keepaliveLog : Nat → HLog
deriving DecidableEq, Repr

/-- Payloads published by the session handler. -/
inductive Payload : Type where
  | log : Nat → HLog → Payload
  | prog : Prog → Payload
  | idxProg : Nat → Prog → Payload
  | alertMsg : String → Payload
  | idxAlert : Nat → String → Payload
  | idxVal : Nat → Payload
  | noneV : Payload
  | lineVal : String → Payload
deriving DecidableEq, Repr

/-- The three-token branch `int(args[1]) / int(args[2])` (`server.py`
line 65).  It is **not** inside the `try`, so a non-numeric token raises
`ValueError` and a zero denominator raises `ZeroDivisionError`, both
uncaught. -/
def progress3 (a b : String) : Except PyErr Prog :=
  match pyInt? a with
  | none => .error .valueError
  | some x =>
      match pyInt? b with
      | none => .error .valueError
      | some y =>
          if y = 0 then .error .zeroDivisionError
          else .ok (.num ((x : ℚ) / (y : ℚ)))

/-- `client_update` (`server.py` lines 61-84) applied to the already-split
token list, for the session with id `idx`.  Returns the list of
(topic, payload) publications it performs, in order, and the exception that
escapes it, if any (publications before the raise have still happened).
Notes kept faithful to the source: the single-argument `progress` branch
wraps `float(args[1]) / 100` in a bare `try`/`except` falling back to
`args[1]`; a missing `args[1]` raises `IndexError` inside the `except` block
again, uncaught; an empty token list raises `IndexError` at `args[0]`; an
unrecognised first token falls through all branches with no effect. -/
def client_update_args (idx : Nat) (args : List String) :
    List (Topic × Payload) × Option PyErr :=
  match args with
  | [] => ([], some .indexError)
  | cmd :: rest =>
      if cmd = "progress" then
        match rest with
        | [a, b] =>
            match progress3 a b with
            | .error e => ([], some e)
            | .ok p =>
                ([(.log, .log 0 (.progressLog idx p)),
                  (.sessionProgress idx, .prog p),
                  (.clientProgress, .idxProg idx p)], none)
        | [] => ([], some .indexError)
        | a :: _ =>
            let p : Prog :=
              match pyFloat? a with
              | some q => .num (q / 100)
              | none => .str a
            ([(.log, .log 0 (.progressLog idx p)),
              (.sessionProgress idx, .prog p),
              (.clientProgress, .idxProg idx p)], none)
      else if cmd = "alert" then
        match rest with
        | [] => ([], some .indexError)
        | m :: _ =>
            ([(.log, .log 0 (.alertLog idx m)),
              (.sessionAlert idx, .alertMsg m),
              (.clientAlert, .idxAlert idx m)], none)
      else if cmd = "done" then
        ([(.log, .log 0 (.doneLog idx)), (.clientDone, .idxVal idx)], none)
      else if cmd = "keepalive" then
        ([(.log, .log 0 (.keepaliveLog idx)), (.sessionKeepalive idx, .noneV)],
          none)
      else ([], none)

/-- `client_update` on a raw protocol line (decode + split + dispatch). -/
def client_update (idx : Nat) (line : String) :
    List (Topic × Payload) × Option PyErr :=
  client_update_args idx (splitWs line)

/-- `_reader` (`server.py` lines 88-94) over a whole session: each complete
line read is republished on `{prefix}/recv`; end of stream raises
`IncompleteReadError`, whose handler publishes `client-leave` — the only
publication of `client-leave` anywhere in the session handler. -/
def readerRun (idx : Nat) (lines : List String) : List (Topic × Payload) :=
  (lines.map (fun l => (Topic.sessionRecv idx, Payload.lineVal l)))
    ++ [(Topic.clientLeave, Payload.idxVal idx)]

/-! ## Worker registry (`src/amicus/server.py`, `ClientService`) -/

/-- `ClientService.Client` (`server.py` lines 111-117): `idx` is the live
session id (−1 = unassigned), `status` the state (0 = Recording, 1 = Success,
2 = Error, per the `ScreenService` statuses table, lines 215-219), `name` the
display name, `progress` the last reported progress, `listidx` the stable
display slot. -/
structure Client : Type where
  idx : Int
  status : Nat
  name : String
  progress : Prog
  listidx : Nat
deriving DecidableEq, Repr

/-- `ClientService`'s log-topic warning texts, one constructor per f-string
(`joinNew` models `f'client-join {c}'` at level 0; the rest are the level-2
warnings). -/
inductive CLog : Type where
  | joinNew : Client → CLog
  | progressedWithoutJoining : Int → CLog
  | doneWithoutJoining : Int → CLog
  | leftWithoutDone : Int → String → CLog
  | leftWithoutJoining : Int → CLog
deriving DecidableEq, Repr

/-- The observable result of one `ClientService` handler call: the new record
list, the `log`-topic publications `(level, message)` and the `listidx`es of
the records published on `client-refresh` (`_refresh`, `server.py`
lines 139-140, publishes `self.clients[listidx]`). -/
structure COut : Type where
  clients : List Client
  logs : List (Nat × CLog)
  refreshes : List Nat
deriving DecidableEq, Repr

/-- `ClientService.get_client` (`server.py` lines 169-172): first record with
the given live id, else `None`. -/
def get_client (cs : List Client) (i : Int) : Option Client :=
  cs.find? (fun c => decide (c.idx = i))

/-- In-place mutation of the record `get_client` found: rewrite the first
record whose `idx` matches. -/
def updateFirstClient (cs : List Client) (i : Int) (f : Client → Client) :
    List Client :=
  match cs with
  | [] => []
  | c :: rest =>
      if c.idx = i then f c :: rest else c :: updateFirstClient rest i f

/-- `ClientService.on_client_join` (`server.py` lines 147-159): reuse the
first record with `idx == -1` (set `idx`, `status = 0`, `progress = 0`; the
`name` and `listidx` are left untouched), else append a fresh record with
`listidx = len(self.clients)` and log it. -/
def on_client_join (cs : List Client) (i : Int) (pfx : String) : COut :=
  match get_client cs (-1) with
  | some c =>
      { clients := updateFirstClient cs (-1)
          (fun c => { c with idx := i, status := 0, progress := .num 0 }),
        logs := [],
        refreshes := [c.listidx] }
  | none =>
      let c : Client :=
        { idx := i, status := 0, name := pfx, progress := .num 0,
          listidx := cs.length }
      { clients := cs ++ [c],
        logs := [(0, .joinNew c)],
        refreshes := [c.listidx] }

/-- `ClientService.on_client_progress` (`server.py` lines 161-167). -/
def on_client_progress (cs : List Client) (i : Int) (p : Prog) : COut :=
  match get_client cs i with
  | some c =>
      { clients := updateFirstClient cs i (fun c => { c with progress := p }),
        logs := [],
        refreshes := [c.listidx] }
  | none =>
      { clients := cs,
        logs := [(2, .progressedWithoutJoining i)],
        refreshes := [] }

/-- `ClientService.on_client_done` (`server.py` lines 174-179). -/
def on_client_done (cs : List Client) (i : Int) : COut :=
  match get_client cs i with
  | some c =>
      { clients := updateFirstClient cs i (fun c => { c with status := 1 }),
        logs := [],
        refreshes := [c.listidx] }
  | none =>
      { clients := cs,
        logs := [(2, .doneWithoutJoining i)],
        refreshes := [] }

/-- `ClientService.on_client_leave` (`server.py` lines 181-191): clear the
live id; if the record was not `Success` (status 1) log a warning and mark it
`Error` (status 2). -/
def on_client_leave (cs : List Client) (i : Int) : COut :=
  match get_client cs i with
  | some c =>
      { clients := updateFirstClient cs i
          (fun c =>
            let c1 : Client := { c with idx := -1 }
            if c1.status ≠ 1 then { c1 with status := 2 } else c1),
        logs := if c.status ≠ 1 then [(2, .leftWithoutDone i c.name)] else [],
        refreshes := [c.listidx] }
  | none =>
      { clients := cs,
        logs := [(2, .leftWithoutJoining i)],
        refreshes := [] }

/-- The events the registry subscribes to (`server.py` lines 134-137). -/
inductive CEvent : Type where
  | join : Int → String → CEvent
  | leave : Int → CEvent
  | done : Int → CEvent
  | progress : Int → Prog → CEvent
deriving DecidableEq, Repr

/-- Dispatch one registry event. -/
def clientStep (cs : List Client) (e : CEvent) : COut :=
  match e with
  | .join i pfx => on_client_join cs i pfx
  | .leave i => on_client_leave cs i
  | .done i => on_client_done cs i
  | .progress i p => on_client_progress cs i p

/-- Run a FIFO sequence of registry events, keeping the record list. -/
def runEvents (cs : List Client) (es : List CEvent) : List Client :=
  es.foldl (fun cs e => (clientStep cs e).clients) cs

/-! ## Helper lemmas -/

theorem updateFirstClient_length (cs : List Client) (i : Int)
    (f : Client → Client) :
    (updateFirstClient cs i f).length = cs.length := by
  induction cs with
  | nil => rfl
  | cons c rest ih => by_cases h : c.idx = i <;> simp [updateFirstClient, h, ih]

theorem lookupA_eq_none {α β : Type} [DecidableEq α] (l : List (α × β))
    (k : α) : lookupA k l = none ↔ k ∉ l.map Prod.fst := by
  induction l with
  | nil => simp [lookupA]
  | cons p rest ih =>
    show (if p.1 = k then some p.2 else lookupA k rest) = none ↔ _
    by_cases hp : p.1 = k
    · rw [if_pos hp]
      simp [hp]
    · rw [if_neg hp, List.map_cons]
      constructor
      · intro h hmem
        rcases List.mem_cons.mp hmem with h1 | h2
        · exact hp h1.symm
        · exact (ih.mp h) h2
      · intro h
        exact ih.mpr fun h2 => h (List.mem_cons.mpr (Or.inr h2))

theorem count_le_one_not_mem_eraseP {α β : Type} [DecidableEq α]
    (l : List (α × β)) (k : α) (h : (l.map Prod.fst).count k ≤ 1) :
    k ∉ ((l.eraseP (fun p => decide (p.1 = k))).map Prod.fst) := by
  induction l with
  | nil => simp
  | cons p rest ih =>
    by_cases hp : p.1 = k
    · have h0 : (rest.map Prod.fst).count k = 0 := by
        simp [hp, List.count_cons] at h
        omega
      have hnm : k ∉ rest.map Prod.fst := by
        simpa using List.count_eq_zero.mp h0
      simpa [List.eraseP_cons, hp] using hnm
    · have hkp : (p.1 == k) = false := beq_eq_false_iff_ne.mpr hp
      have h' : (rest.map Prod.fst).count k ≤ 1 := by
        rw [List.map_cons, List.count_cons] at h
        simpa [hkp] using h
      have herase : (p :: rest).eraseP (fun q => decide (q.1 = k))
          = p :: rest.eraseP (fun q => decide (q.1 = k)) := by
        simp [List.eraseP_cons, hp]
      rw [herase, List.map_cons]
      intro hmem
      rcases List.mem_cons.mp hmem with h1 | h2
      · exact hp h1.symm
      · exact ih h' h2

/-- `TaskAwaiter._await_tasks` ends in the state where the awaiter is removed
and its done event is set. -/
theorem awaitTasksRun_eq (m : MgrState) (i : Nat) (sp : List Nat) :
    awaitTasksRun m i sp
      = { awaiters := (m.awaiters ++ sp.map (fun j => (j, []))).eraseP
            (fun p => decide (p.1 = i)),
          doneEvents := m.doneEvents ++ [i] } := rfl

/-- The drain loop of `ServiceManager.wait`, when it exits, has emptied the
outstanding-waiters set and has awaited every waiter that was present at the
start **and** every waiter registered while a drained waiter's work ran. -/
theorem drain_awaits (fuel : Nat) :
    ∀ (m mf : MgrState) (l : List Nat), drain fuel m = some (mf, l) →
      mf.awaiters = [] ∧ ∀ p ∈ m.awaiters, p.1 ∈ l ∧ ∀ j ∈ p.2, j ∈ l := by
  induction fuel with
  | zero =>
    intro m mf l h
    by_cases he : m.awaiters.isEmpty
    · simp [drain, he] at h
      obtain ⟨rfl, rfl⟩ := h
      exact ⟨List.isEmpty_iff.mp he, by simp [List.isEmpty_iff.mp he]⟩
    · simp [drain, he] at h
  | succ n ih =>
    intro m mf l h
    rcases hA : m.awaiters with _ | ⟨⟨i, sp⟩, rest⟩
    · rw [drain, hA] at h
      simp at h
      obtain ⟨rfl, rfl⟩ := h
      exact ⟨hA, by simp [hA]⟩
    · rw [drain, hA] at h
      have h2 : (match drain n (awaitTasksRun m i sp) with
          | none => none
          | some (mf', l') => some (mf', i :: l')) = some (mf, l) := h
      rcases hd : drain n (awaitTasksRun m i sp) with _ | ⟨mf', l'⟩ <;>
        rw [hd] at h2 <;> simp at h2
      obtain ⟨rfl, rfl⟩ := h2
      obtain ⟨hempty, hall⟩ := ih _ _ _ hd
      have hrest : (awaitTasksRun m i sp).awaiters
          = rest ++ sp.map (fun j => (j, [])) := by
        rw [awaitTasksRun_eq, hA]
        simp [List.eraseP_cons]
      refine ⟨hempty, ?_⟩
      intro p hp
      rcases List.mem_cons.mp hp with rfl | hp'
      · refine ⟨List.mem_cons_self _ _, fun j hj => ?_⟩
        have hjmem : ((j, ([] : List Nat)) : Nat × List Nat)
            ∈ (awaitTasksRun m i sp).awaiters := by
          rw [hrest]
          exact List.mem_append_right _ (List.mem_map.mpr ⟨j, hj, rfl⟩)
        exact List.mem_cons.mpr (Or.inr (hall _ hjmem).1)
      · have hpmem : p ∈ (awaitTasksRun m i sp).awaiters := by
          rw [hrest]
          exact List.mem_append_left _ hp'
        obtain ⟨h1, h2⟩ := hall _ hpmem
        exact ⟨List.mem_cons.mpr (Or.inr h1),
          fun j hj => List.mem_cons.mpr (Or.inr (h2 j hj))⟩

theorem lookupA_setAssoc_self {α β : Type} [DecidableEq α] (l : List (α × β))
    (k : α) (v : β) :
    lookupA k (setAssoc l k v) = (lookupA k l).map (fun _ => v) := by
  induction l with
  | nil => rfl
  | cons p rest ih =>
    by_cases hp : p.1 = k
    · simp [setAssoc, lookupA, hp]
    · simp [setAssoc, lookupA, hp, ih]

theorem lookupA_setAssoc_ne {α β : Type} [DecidableEq α] (l : List (α × β))
    (k k' : α) (v : β) (h : k' ≠ k) :
    lookupA k' (setAssoc l k v) = lookupA k' l := by
  induction l with
  | nil => rfl
  | cons p rest ih =>
    by_cases hp : p.1 = k
    · simp [setAssoc, lookupA, hp, Ne.symm h, h]
    · simp [setAssoc, lookupA, hp, ih]

theorem listenerDelivered_vals (vs : List Nat) :
    listenerDelivered (vs.map Ev.val) = vs.map Ev.val := by
  induction vs with
  | nil => rfl
  | cons v rest ih => simp [listenerDelivered, ih]

theorem listenerTerminated_vals (vs : List Nat) :
    listenerTerminated (vs.map Ev.val) = false := by
  induction vs with
  | nil => rfl
  | cons v rest ih => simp [listenerTerminated, ih]

theorem listener_quit (q : List Ev) :
    listenerDelivered (q ++ [Ev.quit]) = listenerDelivered q
    ∧ listenerTerminated (q ++ [Ev.quit]) = true := by
  induction q with
  | nil => simp [listenerDelivered, listenerTerminated]
  | cons e rest ih =>
    by_cases he : e = Ev.quit <;>
      simp [listenerDelivered, listenerTerminated, he, ih]

theorem foldlM_on_pub (t : String) (e : Ev) :
    ∀ (subs : List String) (s : BusState),
      subs.Nodup →
      (∀ sv ∈ subs, (lookupA (sv, t) s.queues).isSome = true) →
      ∃ s', subs.foldlM (fun st sv => on_pub st sv t e) s = .ok s'
        ∧ s'.topics = s.topics ∧ s'.services = s.services
        ∧ (∀ sv ∈ subs, lookupA (sv, t) s'.queues
             = (lookupA (sv, t) s.queues).map (fun q => q ++ [e]))
        ∧ (∀ k : String × String, ¬(k.1 ∈ subs ∧ k.2 = t) →
             lookupA k s'.queues = lookupA k s.queues) := by
  intro subs
  induction subs with
  | nil =>
    intro s _ _
    exact ⟨s, rfl, rfl, rfl, by simp, fun k _ => rfl⟩
  | cons sv rest ih =>
    intro s hnd hq
    obtain ⟨q0, hq0⟩ := Option.isSome_iff_exists.mp
      (hq sv (List.mem_cons_self _ _))
    have hstep : on_pub s sv t e
        = .ok { s with queues := setAssoc s.queues (sv, t) (q0 ++ [e]) } := by
      simp [on_pub, hq0]
    have hsv : sv ∉ rest := (List.nodup_cons.mp hnd).1
    have hq1 : ∀ sv' ∈ rest,
        (lookupA (sv', t)
          (setAssoc s.queues (sv, t) (q0 ++ [e]))).isSome = true := by
      intro sv' hm
      have hne : ((sv', t) : String × String) ≠ (sv, t) := by
        intro he
        exact hsv ((Prod.mk.injEq _ _ _ _ ▸ he).1 ▸ hm)
      rw [lookupA_setAssoc_ne _ _ _ _ hne]
      exact hq sv' (List.mem_cons_of_mem _ hm)
    obtain ⟨s', h1, h2, h3, h4, h5⟩ :=
      ih { s with queues := setAssoc s.queues (sv, t) (q0 ++ [e]) }
        (List.nodup_cons.mp hnd).2 hq1
    refine ⟨s', ?_, h2, h3, ?_, ?_⟩
    · show (on_pub s sv t e >>= fun st =>
        rest.foldlM (fun st sv => on_pub st sv t e) st) = .ok s'
      rw [hstep]
      exact h1
    · intro sv' hm
      rcases List.mem_cons.mp hm with rfl | hm'
      · have hkey : ¬(sv' ∈ rest ∧ t = t) := fun hc => hsv hc.1
        rw [h5 (sv', t) hkey, lookupA_setAssoc_self, hq0]
        rfl
      · have hne : ((sv', t) : String × String) ≠ (sv, t) := by
          intro he
          exact hsv ((Prod.mk.injEq _ _ _ _ ▸ he).1 ▸ hm')
        rw [h4 sv' hm', lookupA_setAssoc_ne _ _ _ _ hne]
    · intro k hk
      have hk' : ¬(k.1 ∈ rest ∧ k.2 = t) := by
        intro hc
        exact hk ⟨List.mem_cons_of_mem _ hc.1, hc.2⟩
      have hne : k ≠ (sv, t) := by
        intro he
        exact hk ⟨he ▸ List.mem_cons_self _ _, he ▸ rfl⟩
      rw [h5 k hk', lookupA_setAssoc_ne _ _ _ _ hne]

theorem pubAll_props (t sv : String) (es : List Ev) :
    ∀ (s : BusState) (q : List Ev),
      lookupA t s.topics = some [sv] →
      lookupA (sv, t) s.queues = some q →
      ∃ s', pubAll s t es = .ok s'
        ∧ s'.topics = s.topics ∧ s'.services = s.services
        ∧ lookupA (sv, t) s'.queues = some (q ++ es) := by
  induction es with
  | nil =>
    intro s q hT hQ
    exact ⟨s, rfl, rfl, rfl, by simpa using hQ⟩
  | cons e rest ih =>
    intro s q hT hQ
    obtain ⟨s1, hf, ht1, hs1, hq4, _⟩ := foldlM_on_pub t e [sv] s
      (List.nodup_singleton _)
      (by intro x hx; rw [List.mem_singleton] at hx; subst hx; simp [hQ])
    have hpub : pub s t e = .ok s1 := by
      rw [pub, hT]
      exact hf
    have hT1 : lookupA t s1.topics = some [sv] := by rw [ht1]; exact hT
    have hQ1 : lookupA (sv, t) s1.queues = some (q ++ [e]) := by
      rw [hq4 sv (List.mem_singleton_self _), hQ]
      rfl
    obtain ⟨s', h1, h2, h3, h4⟩ := ih s1 (q ++ [e]) hT1 hQ1
    refine ⟨s', ?_, h2.trans ht1, h3.trans hs1, by
      simpa [List.append_assoc] using h4⟩
    show (pub s t e >>= fun st => pubAll st t rest) = .ok s'
    rw [hpub]
    exact h1

theorem except_bind_ok {ε α β : Type} (a : α) (f : α → Except ε β) :
    (Except.ok a >>= f : Except ε β) = f a := rfl

/-! ## Claims -/

/-- C2: for every worker session id `i`, the registry maps
`join(i) → progress(i, p) → done(i) → leave(i)` to a single record with
`status = Success` (1) and `id = -1`, and `join(i) → leave(i)` with no `done`
to a single record with `status = Error` (2).
(`Client` fields: idx, status, name, progress, listidx.) -/
theorem spec_C2 (i : Int) (pfx : String) (p : Prog) :
    runEvents [] [CEvent.join i pfx, CEvent.progress i p, CEvent.done i,
        CEvent.leave i]
      = [(⟨-1, 1, pfx, p, 0⟩ : Client)]
    ∧ runEvents [] [CEvent.join i pfx, CEvent.leave i]
      = [(⟨-1, 2, pfx, Prog.num 0, 0⟩ : Client)] := by
  constructor <;>
    simp [runEvents, clientStep, on_client_join, on_client_progress,
      on_client_done, on_client_leave, get_client, updateFirstClient,
      List.find?]

/-- C3: after `join(i) → leave(i)`, a later `join(j)` reuses the existing
record (same `listidx`, no append), setting `idx := j`, `status := Recording`
(0) and `progress := 0`; in general `on_client_join` preserves the record
count whenever a record with `idx = -1` exists, and appends a fresh record
with `listidx = len(records)` exactly when none exists. -/
theorem spec_C3 :
    (∀ (i j : Int) (pfx pfx2 : String),
       runEvents [] [CEvent.join i pfx, CEvent.leave i, CEvent.join j pfx2]
         = [(⟨j, 0, pfx, Prog.num 0, 0⟩ : Client)])
    ∧ (∀ (cs : List Client) (i : Int) (pfx : String),
         (get_client cs (-1)).isSome = true →
         (on_client_join cs i pfx).clients.length = cs.length)
    ∧ (∀ (cs : List Client) (i : Int) (pfx : String),
         get_client cs (-1) = none →
         (on_client_join cs i pfx).clients
           = cs ++ [(⟨i, 0, pfx, Prog.num 0, cs.length⟩ : Client)]) := by
  refine ⟨fun i j pfx pfx2 => ?_, fun cs i pfx h => ?_, fun cs i pfx h => ?_⟩
  · simp [runEvents, clientStep, on_client_join, on_client_leave, get_client,
      updateFirstClient, List.find?]
  · cases hc : get_client cs (-1) with
    | none => rw [hc] at h; simp at h
    | some c => simp [on_client_join, hc, updateFirstClient_length]
  · simp [on_client_join, h]

/-- C3 witness: with one left record (`idx = -1`) a join reuses it (length
unchanged); with no reusable record a join appends a fresh slot. -/
theorem spec_C3_witness :
    ((get_client [(⟨-1, 2, "h0", Prog.num 0, 0⟩ : Client)] (-1)).isSome = true
      ∧ (on_client_join [(⟨-1, 2, "h0", Prog.num 0, 0⟩ : Client)]
          9 "h1").clients.length = 1)
    ∧ (get_client [] 5 = none
      ∧ (on_client_join [] 5 "h0").clients
          = [(⟨5, 0, "h0", Prog.num 0, 0⟩ : Client)]) :=
  ⟨⟨by decide, spec_C3.2.1 _ 9 "h1" (by decide)⟩,
   ⟨rfl, spec_C3.2.2 [] 5 "h0" rfl⟩⟩

/-- C7: a `client-progress`, `client-done` or `client-leave` event whose id
matches no live record leaves the record list unchanged, publishes nothing on
`client-refresh`, and its only observable effect is one level-2 warning on the
`log` topic. -/
theorem spec_C7 (cs : List Client) (i : Int) (p : Prog)
    (h : get_client cs i = none) :
    on_client_progress cs i p
      = ⟨cs, [(2, CLog.progressedWithoutJoining i)], []⟩
    ∧ on_client_done cs i
      = ⟨cs, [(2, CLog.doneWithoutJoining i)], []⟩
    ∧ on_client_leave cs i
      = ⟨cs, [(2, CLog.leftWithoutJoining i)], []⟩ := by
  simp [on_client_progress, on_client_done, on_client_leave, h]

/-- C7 witness at a concrete registry and unknown id. -/
theorem spec_C7_witness :
    get_client [(⟨3, 0, "h0", Prog.num 0, 0⟩ : Client)] 5 = none
    ∧ (on_client_progress [(⟨3, 0, "h0", Prog.num 0, 0⟩ : Client)] 5
          (Prog.num 0)
        = ⟨[⟨3, 0, "h0", Prog.num 0, 0⟩],
            [(2, CLog.progressedWithoutJoining 5)], []⟩
      ∧ on_client_done [(⟨3, 0, "h0", Prog.num 0, 0⟩ : Client)] 5
        = ⟨[⟨3, 0, "h0", Prog.num 0, 0⟩],
            [(2, CLog.doneWithoutJoining 5)], []⟩
      ∧ on_client_leave [(⟨3, 0, "h0", Prog.num 0, 0⟩ : Client)] 5
        = ⟨[⟨3, 0, "h0", Prog.num 0, 0⟩],
            [(2, CLog.leftWithoutJoining 5)], []⟩) :=
  ⟨by decide, spec_C7 _ 5 (Prog.num 0) (by decide)⟩

/-- C4 counterexample: on the three-token line `progress x 10` with
non-numeric `x`, `client_update` raises an uncaught `ValueError` (the
`try`/`except` covers only the single-argument branch) and publishes nothing —
it does not fall back to storing the raw string. -/
theorem spec_C4_counterexample :
    client_update 0 "progress x 10\n" = ([], some PyErr.valueError) := by
  decide

/-- C4 (amended): for a line `progress a b` with three whitespace-separated
tokens, the handler computes the numeric ratio `int(a)/int(b)` when both
parse as integers (and the denominator is non-zero); when `a` or `b` is
non-numeric the `int()` call raises `ValueError`, which is *not* caught (the
`try`/`except` wraps only the single-argument branch), so no progress value
is stored and nothing is published. -/
theorem spec_C4 (idx : Nat) (a b : String) :
    (∀ x y : Int, pyInt? a = some x → pyInt? b = some y → y ≠ 0 →
       client_update_args idx ["progress", a, b]
         = ([(Topic.log,
              Payload.log 0 (HLog.progressLog idx (Prog.num ((x : ℚ) / y)))),
             (Topic.sessionProgress idx,
              Payload.prog (Prog.num ((x : ℚ) / y))),
             (Topic.clientProgress,
              Payload.idxProg idx (Prog.num ((x : ℚ) / y)))], none))
    ∧ (pyInt? a = none →
       client_update_args idx ["progress", a, b] = ([], some PyErr.valueError))
    ∧ (∀ x : Int, pyInt? a = some x → pyInt? b = none →
       client_update_args idx ["progress", a, b]
         = ([], some PyErr.valueError)) := by
  refine ⟨fun x y hx hy hy0 => ?_, fun ha => ?_, fun x hx hb => ?_⟩ <;>
    simp [client_update_args, progress3, *]

/-- C4 witness: `progress 3 10` parses and publishes the ratio `3/10`. -/
theorem spec_C4_witness :
    pyInt? "3" = some 3 ∧ pyInt? "10" = some 10 ∧ (10 : Int) ≠ 0
    ∧ client_update_args 0 ["progress", "3", "10"]
        = ([(Topic.log,
             Payload.log 0 (HLog.progressLog 0 (Prog.num ((3 : ℚ) / 10)))),
            (Topic.sessionProgress 0, Payload.prog (Prog.num ((3 : ℚ) / 10))),
            (Topic.clientProgress,
             Payload.idxProg 0 (Prog.num ((3 : ℚ) / 10)))], none) :=
  ⟨by decide, by decide, by decide,
   (spec_C4 0 "3" "10").1 3 10 (by decide) (by decide) (by decide)⟩

/-- C5: for a single-argument line `progress p`, the stored value is
`float(p)/100` when `p` parses as a float, and the verbatim string `p`
otherwise; in particular `progress 3 10` yields `0.3`, `progress 50` yields
`0.5`, and `progress banana` yields the string `"banana"`. -/
theorem spec_C5 :
    (∀ (idx : Nat) (p : String) (q : ℚ), pyFloat? p = some q →
       client_update_args idx ["progress", p]
         = ([(Topic.log,
              Payload.log 0 (HLog.progressLog idx (Prog.num (q / 100)))),
             (Topic.sessionProgress idx, Payload.prog (Prog.num (q / 100))),
             (Topic.clientProgress,
              Payload.idxProg idx (Prog.num (q / 100)))], none))
    ∧ (∀ (idx : Nat) (p : String), pyFloat? p = none →
       client_update_args idx ["progress", p]
         = ([(Topic.log, Payload.log 0 (HLog.progressLog idx (Prog.str p))),
             (Topic.sessionProgress idx, Payload.prog (Prog.str p)),
             (Topic.clientProgress,
              Payload.idxProg idx (Prog.str p))], none))
    ∧ (client_update 0 "progress 3 10\n").1.map Prod.snd
        = [Payload.log 0 (HLog.progressLog 0 (Prog.num ((3 : ℚ) / 10))),
           Payload.prog (Prog.num ((3 : ℚ) / 10)),
           Payload.idxProg 0 (Prog.num ((3 : ℚ) / 10))]
    ∧ (client_update 0 "progress 50\n").1.map Prod.snd
        = [Payload.log 0 (HLog.progressLog 0 (Prog.num ((1 : ℚ) / 2))),
           Payload.prog (Prog.num ((1 : ℚ) / 2)),
           Payload.idxProg 0 (Prog.num ((1 : ℚ) / 2))]
    ∧ (client_update 0 "progress banana\n").1.map Prod.snd
        = [Payload.log 0 (HLog.progressLog 0 (Prog.str "banana")),
           Payload.prog (Prog.str "banana"),
           Payload.idxProg 0 (Prog.str "banana")] := by
  refine ⟨fun idx p q hq => ?_, fun idx p hp => ?_, ?_, ?_, ?_⟩
  · simp [client_update_args, hq]
  · simp [client_update_args, hp]
  · have hs : splitWs "progress 3 10\n" = ["progress", "3", "10"] := by decide
    have h1 : pyInt? "3" = some 3 := by rfl
    have h2 : pyInt? "10" = some 10 := by rfl
    rw [client_update, hs]
    simp [client_update_args, progress3, h1, h2]
  · have hs : splitWs "progress 50\n" = ["progress", "50"] := by decide
    have h1 : pyFloat? "50" = some 50 := by rfl
    rw [client_update, hs]
    simp [client_update_args, h1]
    norm_num
  · have hs : splitWs "progress banana\n" = ["progress", "banana"] := by decide
    have h1 : pyFloat? "banana" = none := by rfl
    rw [client_update, hs]
    simp [client_update_args, h1]

/-- C5 witness: `progress 50` parses as a float and is stored as `0.5`;
`progress banana` does not parse and is stored verbatim. -/
theorem spec_C5_witness :
    pyFloat? "50" = some 50 ∧ pyFloat? "banana" = none
    ∧ client_update_args 0 ["progress", "50"]
        = ([(Topic.log,
             Payload.log 0 (HLog.progressLog 0 (Prog.num ((50 : ℚ) / 100)))),
            (Topic.sessionProgress 0,
             Payload.prog (Prog.num ((50 : ℚ) / 100))),
            (Topic.clientProgress,
             Payload.idxProg 0 (Prog.num ((50 : ℚ) / 100)))], none)
    ∧ client_update_args 0 ["progress", "banana"]
        = ([(Topic.log, Payload.log 0 (HLog.progressLog 0 (Prog.str "banana"))),
            (Topic.sessionProgress 0, Payload.prog (Prog.str "banana")),
            (Topic.clientProgress,
             Payload.idxProg 0 (Prog.str "banana"))], none) :=
  ⟨by rfl, by rfl,
   spec_C5.1 0 "50" 50 (by rfl),
   spec_C5.2.1 0 "banana" (by rfl)⟩

/-- C9: the keepalive idle-timeout logic never fires — no protocol line
processed by `client_update` (in particular no sequence of `keepalive` lines)
ever publishes a `client-leave` event; the only `client-leave` publication of
the session handler is the single one at the end-of-stream branch of the
reader loop. -/
theorem spec_C9 :
    (∀ (idx : Nat) (args : List String),
       ((client_update_args idx args).1.map Prod.fst).count Topic.clientLeave
         = 0)
    ∧ (∀ (idx : Nat) (lines : List String),
       (readerRun idx lines).map Prod.fst
         = lines.map (fun _ => Topic.sessionRecv idx) ++ [Topic.clientLeave]
       ∧ ((readerRun idx lines).map Prod.fst).count Topic.clientLeave = 1) := by
  constructor
  · intro idx args
    unfold client_update_args
    repeat' split
    all_goals rfl
  · intro idx lines
    have hm : Topic.clientLeave ∉ lines.map (fun _ => Topic.sessionRecv idx) := by
      simp
    have hmap : (readerRun idx lines).map Prod.fst
        = lines.map (fun _ => Topic.sessionRecv idx) ++ [Topic.clientLeave] := by
      simp [readerRun, Function.comp_def]
    refine ⟨hmap, ?_⟩
    rw [hmap]
    simp [List.count_append, List.count_eq_zero.mpr hm, List.count_replicate]

/-- C10: `client_update` is not total at the public interface — the empty
protocol line (just a newline, splitting into zero tokens) raises
`IndexError` at `args[0]`, while any line whose first token is none of
`progress`/`alert`/`done`/`keepalive` returns normally, publishing nothing
and logging nothing. -/
theorem spec_C10 :
    (∀ idx : Nat, client_update idx "\n" = ([], some PyErr.indexError))
    ∧ (∀ (idx : Nat) (line cmd : String) (rest : List String),
        splitWs line = cmd :: rest →
        cmd ≠ "progress" → cmd ≠ "alert" → cmd ≠ "done" → cmd ≠ "keepalive" →
        client_update idx line = ([], none)) := by
  refine ⟨fun idx => rfl, fun idx line cmd rest h h1 h2 h3 h4 => ?_⟩
  simp [client_update, client_update_args, h, h1, h2, h3, h4]

/-- C10 witness: the line `hello x` has an unrecognised first token and is
ignored without effect. -/
theorem spec_C10_witness :
    splitWs "hello x\n" = ["hello", "x"]
    ∧ "hello" ≠ "progress" ∧ "hello" ≠ "alert" ∧ "hello" ≠ "done"
    ∧ "hello" ≠ "keepalive"
    ∧ client_update 0 "hello x\n" = ([], none) :=
  ⟨by decide, by decide, by decide, by decide, by decide,
   spec_C10.2 0 "hello x\n" "hello" ["x"] (by decide) (by decide) (by decide)
     (by decide) (by decide)⟩

/-- C8: every task awaiter removes itself from the manager's
outstanding-waiters set strictly before it signals its done event — at no
state of `_await_tasks`'s trace is the done event set while the awaiter is
still present — and the drain loop of `wait` re-reads the outstanding set
every iteration, exits only with the set empty, and awaits both the waiters
present when the drain began and those registered during the drain. -/
theorem spec_C8 :
    (∀ (m : MgrState) (i : Nat) (sp : List Nat),
       i ∉ sp → i ∉ m.doneEvents → (m.awaiters.map Prod.fst).count i ≤ 1 →
       ∀ s ∈ awaitTasksTrace m i sp,
         i ∈ s.doneEvents → i ∉ s.awaiters.map Prod.fst)
    ∧ (∀ (fuel : Nat) (m mf : MgrState) (l : List Nat),
       drain fuel m = some (mf, l) →
       mf.awaiters = [] ∧ ∀ p ∈ m.awaiters, p.1 ∈ l ∧ ∀ j ∈ p.2, j ∈ l) := by
  refine ⟨?_, fun fuel => drain_awaits fuel⟩
  intro m i sp hisp hidone hcount s hs hdone
  simp only [awaitTasksTrace, List.mem_cons, List.not_mem_nil, or_false]
    at hs
  rcases hs with rfl | rfl | rfl | rfl
  · exact absurd hdone hidone
  · exact absurd hdone hidone
  · exact absurd hdone hidone
  · apply count_le_one_not_mem_eraseP
    have hsp : (sp.map (fun j => (j, ([] : List Nat)))).map Prod.fst = sp := by
      simp [Function.comp_def]
    rw [List.map_append, List.count_append, hsp,
      List.count_eq_zero.mpr hisp]
    omega

/-- C8 witness: one awaiter (id 0) whose work registers a second awaiter
(id 1); the trace property holds and a 3-step drain awaits both. -/
theorem spec_C8_witness :
    ((0 : Nat) ∉ ([1] : List Nat)
      ∧ (0 : Nat) ∉ ([] : List Nat)
      ∧ (([((0 : Nat), [1])] : List (Nat × List Nat)).map Prod.fst).count 0 ≤ 1
      ∧ ∀ s ∈ awaitTasksTrace ⟨[(0, [1])], []⟩ 0 [1],
          0 ∈ s.doneEvents → 0 ∉ s.awaiters.map Prod.fst)
    ∧ (drain 3 ⟨[(0, [1])], []⟩ = some (⟨[], [0, 1]⟩, [0, 1])
      ∧ (⟨[], [0, 1]⟩ : MgrState).awaiters = []
      ∧ ∀ p ∈ ([((0 : Nat), [1])] : List (Nat × List Nat)),
          p.1 ∈ [0, 1] ∧ ∀ j ∈ p.2, j ∈ [0, 1]) := by
  have hdrain : drain 3 (⟨[(0, [1])], []⟩ : MgrState)
      = some (⟨[], [0, 1]⟩, [0, 1]) := by decide
  exact ⟨⟨by decide, by decide, by decide,
    spec_C8.1 ⟨[(0, [1])], []⟩ 0 [1] (by decide) (by decide) (by decide)⟩,
    hdrain, (spec_C8.2 3 _ _ _ hdrain).1, (spec_C8.2 3 _ _ _ hdrain).2⟩

/-- C1: for a topic created before any publish or subscribe, a `subscribe`
followed by a sequence of `publish` calls from one logical sequence point
leaves exactly the published values, in publish order, in the subscriber's
queue, and the consumer loop hands the handler exactly that list — each value
exactly once, in FIFO order — without terminating. -/
theorem spec_C1 (t sv : String) (vs : List Nat)
    (h1 : sv ≠ "log") (h2 : t ≠ "log") (h3 : t ≠ sv) :
    ∃ s', (do
        let s0 ← register initState sv
        let s1 ← create_topic s0 t
        let s2 ← sub s1 sv t
        pubAll s2 t (vs.map Ev.val)) = Except.ok s'
      ∧ lookupA (sv, t) s'.queues = some (vs.map Ev.val)
      ∧ listenerDelivered (vs.map Ev.val) = vs.map Ev.val
      ∧ listenerTerminated (vs.map Ev.val) = false := by
  have e1 : register initState sv
      = .ok ⟨[sv], [("log", []), (sv, [])], []⟩ := by
    simp [register, create_topic, initState, lookupA, Ne.symm h1]
  have e2 : create_topic (⟨[sv], [("log", []), (sv, [])], []⟩ : BusState) t
      = .ok ⟨[sv], [("log", []), (sv, []), (t, [])], []⟩ := by
    simp [create_topic, lookupA, Ne.symm h2, Ne.symm h3]
  have e3 : sub (⟨[sv], [("log", []), (sv, []), (t, [])], []⟩ : BusState) sv t
      = .ok ⟨[sv], [("log", []), (sv, []), (t, [sv])], [((sv, t), [])]⟩ := by
    simp [sub, lookupA, setAssoc, Ne.symm h2, Ne.symm h3]
  obtain ⟨s', hp, _, _, hq⟩ := pubAll_props t sv (vs.map Ev.val)
    ⟨[sv], [("log", []), (sv, []), (t, [sv])], [((sv, t), [])]⟩ []
    (by simp [lookupA, Ne.symm h2, Ne.symm h3]) (by simp [lookupA])
  refine ⟨s', ?_, by simpa using hq, listenerDelivered_vals vs,
    listenerTerminated_vals vs⟩
  simp only [e1, except_bind_ok, e2, e3]
  exact hp

/-- C1 witness: publishing 1, 2, 3 on a fresh topic delivers [1, 2, 3]. -/
theorem spec_C1_witness :
    (("svc" : String) ≠ "log" ∧ ("data" : String) ≠ "log"
      ∧ ("data" : String) ≠ "svc")
    ∧ ∃ s', (do
        let s0 ← register initState "svc"
        let s1 ← create_topic s0 "data"
        let s2 ← sub s1 "svc" "data"
        pubAll s2 "data" ([1, 2, 3].map Ev.val)) = Except.ok s'
      ∧ lookupA ("svc", "data") s'.queues = some ([1, 2, 3].map Ev.val)
      ∧ listenerDelivered ([1, 2, 3].map Ev.val) = [1, 2, 3].map Ev.val
      ∧ listenerTerminated ([1, 2, 3].map Ev.val) = false :=
  ⟨⟨by decide, by decide, by decide⟩,
   spec_C1 "data" "svc" [1, 2, 3] (by decide) (by decide) (by decide)⟩

/-- C6: `close_topic` on an existing topic enqueues the `QUIT` sentinel for
every subscriber current at the time of the call; a consumer loop that
dequeues the sentinel terminates without handing it to the handler; and after
the close, every `publish` on the topic name fails with `UnknownTopic`, as
does every `subscribe` by a registered service that does not already hold a
stale queue for that name. -/
theorem spec_C6 (s : BusState) (t : String) (subs : List String)
    (hT : lookupA t s.topics = some subs)
    (hN : subs.Nodup)
    (hQ : ∀ sv ∈ subs, (lookupA (sv, t) s.queues).isSome = true)
    (hC : (s.topics.map Prod.fst).count t ≤ 1) :
    ∃ s', close_topic s t = .ok s'
      ∧ (∀ sv ∈ subs, lookupA (sv, t) s'.queues
           = (lookupA (sv, t) s.queues).map (fun q => q ++ [Ev.quit]))
      ∧ (∀ q : List Ev,
           listenerDelivered (q ++ [Ev.quit]) = listenerDelivered q
           ∧ listenerTerminated (q ++ [Ev.quit]) = true)
      ∧ lookupA t s'.topics = none
      ∧ (∀ e, pub s' t e = .error .unknownTopic)
      ∧ (∀ sv2, sv2 ∈ s'.services →
           lookupA (sv2, t) s'.queues = none →
           sub s' sv2 t = .error .unknownTopic) := by
  obtain ⟨s1, hf, ht1, hs1, h4, h5⟩ := foldlM_on_pub t Ev.quit subs s hN hQ
  have hpub : pub s t Ev.quit = .ok s1 := by
    rw [pub, hT]
    exact hf
  have hnone : lookupA t (s1.topics.eraseP (fun p => decide (p.1 = t)))
      = none := by
    rw [ht1]
    exact (lookupA_eq_none _ _).mpr (count_le_one_not_mem_eraseP s.topics t hC)
  refine ⟨{ s1 with topics := s1.topics.eraseP (fun p => decide (p.1 = t)) },
    ?_, ?_, listener_quit, hnone, ?_, ?_⟩
  · rw [close_topic, hpub]
  · intro sv hm
    exact h4 sv hm
  · intro e
    rw [pub]
    simp [hnone]
  · intro sv2 hsv2 hq2
    rw [sub]
    simp [hq2, hsv2, hnone]

/-- C6 witness: a topic `tp` with two subscribers `a`, `b`. -/
theorem spec_C6_witness :
    (lookupA "tp"
        (⟨["a", "b", "c"], [("log", []), ("tp", ["a", "b"])],
          [(("a", "tp"), [Ev.val 1]), (("b", "tp"), [])]⟩ : BusState).topics
        = some ["a", "b"]
      ∧ (["a", "b"] : List String).Nodup
      ∧ (∀ sv ∈ (["a", "b"] : List String), (lookupA (sv, "tp")
          (⟨["a", "b", "c"], [("log", []), ("tp", ["a", "b"])],
            [(("a", "tp"), [Ev.val 1]), (("b", "tp"), [])]⟩ :
              BusState).queues).isSome = true)
      ∧ ((⟨["a", "b", "c"], [("log", []), ("tp", ["a", "b"])],
          [(("a", "tp"), [Ev.val 1]), (("b", "tp"), [])]⟩ :
            BusState).topics.map Prod.fst).count "tp" ≤ 1)
    ∧ ∃ s', close_topic
        (⟨["a", "b", "c"], [("log", []), ("tp", ["a", "b"])],
          [(("a", "tp"), [Ev.val 1]), (("b", "tp"), [])]⟩ : BusState) "tp"
        = .ok s'
      ∧ (∀ sv ∈ (["a", "b"] : List String), lookupA (sv, "tp") s'.queues
           = (lookupA (sv, "tp")
               (⟨["a", "b", "c"], [("log", []), ("tp", ["a", "b"])],
                 [(("a", "tp"), [Ev.val 1]), (("b", "tp"), [])]⟩ :
                   BusState).queues).map (fun q => q ++ [Ev.quit]))
      ∧ (∀ q : List Ev,
           listenerDelivered (q ++ [Ev.quit]) = listenerDelivered q
           ∧ listenerTerminated (q ++ [Ev.quit]) = true)
      ∧ lookupA "tp" s'.topics = none
      ∧ (∀ e, pub s' "tp" e = .error .unknownTopic)
      ∧ (∀ sv2, sv2 ∈ s'.services →
           lookupA (sv2, "tp") s'.queues = none →
           sub s' sv2 "tp" = .error .unknownTopic) :=
  ⟨⟨by decide, by decide, by decide, by decide⟩,
   spec_C6 _ "tp" ["a", "b"] (by decide) (by decide) (by decide) (by decide)⟩

end Amicus
